import Mathlib

/-!
Verification of the installplan-operator reconciliation controller
(`installplan_operator/main.py`) against its design specification.

The embedding models:
* the data model (`UpdateSpec`, `Subscription`, `InstallPlan`);
* the dynamic-client endpoints (`subscriptions.get`, `installplans.get`,
  `installplans.patch`) as an `ApiClient` record of fallible functions,
  with the exception taxonomy of `openshift.dynamic.exceptions`
  (`NotFoundError` and `UnauthorizedError` are subclasses of
  `DynamicApiError`, which matters for `main`'s handler order);
* `Approver.process_update_spec` and `Approver.process_update_specs` as
  functions producing a trace of log lines, patch calls and a possibly
  escaping exception;
* `Approver.loop`'s debounce gate as a fold over the sequence of times at
  which events are handled (`time.time()` at the top of the loop body);
* one blocking pop of `Approver.events` (`q.get(timeout=max_interval)`
  with `queue.Empty` mapped to a synthesized `('timeout',)` event);
* the top-level exception handler of `main`.
-/

namespace InstallPlanOperator

/-- Character-list prefix test, used to define substring containment of
log lines. `isPrefixB pat l` is true when `pat` is an initial segment of
`l`. -/
def isPrefixB : List Char → List Char → Bool
  | [], _ => true
  | _ :: _, [] => false
  | a :: as, b :: bs => a == b && isPrefixB as bs

/-- `hasSegB pat l` is true when `pat` occurs as a contiguous segment of
`l`. -/
def hasSegB (pat : List Char) : List Char → Bool
  | [] => isPrefixB pat []
  | c :: ls => isPrefixB pat (c :: ls) || hasSegB pat ls

/-- `strContains s pat` is true when the string `pat` occurs as a
contiguous substring of `s`; used to state "a log line containing ...". -/
def strContains (s pat : String) : Bool :=
  hasSegB pat.data s.data

/-- An update specification: the parsed YAML mapping with required keys
`name`, `namespace`, `version`.  The Python key `namespace` is a Lean
keyword, so the field is called `nspace`. -/
structure UpdateSpec where
  name : String
  nspace : String
  version : String
deriving DecidableEq

/-- `installPlanRef` field of a Subscription's status. -/
structure InstallPlanRef where
  name : String
deriving DecidableEq

/-- Status of a Subscription; the only field the operator reads is
`status.installPlanRef.name`. -/
structure SubscriptionStatus where
  installPlanRef : InstallPlanRef
deriving DecidableEq

/-- A Subscription resource, as far as the operator consumes it. -/
structure Subscription where
  status : SubscriptionStatus
deriving DecidableEq

/-- The `spec` stanza of an InstallPlan: the approval flag and the ordered
list of cluster service version names. -/
structure InstallPlanSpec where
  approved : Bool
  clusterServiceVersionNames : List String
deriving DecidableEq

/-- An InstallPlan resource: its metadata name (used as the patch target)
and its `spec` stanza. -/
structure InstallPlan where
  name : String
  spec : InstallPlanSpec
deriving DecidableEq

/-- The exceptions of `openshift.dynamic.exceptions` relevant to the
operator, plus Python's `FileNotFoundError` and `IndexError`.  In Python,
`NotFoundError` and `UnauthorizedError` are subclasses of
`DynamicApiError`; the embedding keeps them as separate constructors and
encodes the subclass relation in `mainHandler`'s clause order. -/
inductive PyExc where
  | notFoundError (summary : String)
  | unauthorizedError (summary : String)
  | dynamicApiError (summary : String)
  | fileNotFoundError (msg : String)
  | indexError
deriving DecidableEq

/-- A call to `installplans.patch(body=..., namespace=...)`. -/
structure PatchCall where
  body : InstallPlan
  nspace : String
deriving DecidableEq

/-- The dynamic-client endpoints used by `Approver`:
`self.subscriptions.get`, `self.installplans.get` and
`self.installplans.patch`, each of which may raise an exception. -/
structure ApiClient where
  getSubscription : String → String → Except PyExc Subscription
  getInstallPlan : String → String → Except PyExc InstallPlan
  patchInstallPlan : InstallPlan → String → Except PyExc InstallPlan

/-- The observable effects of one `process_update_spec` call: the log
lines it emits, the patch calls it issues, and the exception escaping it
(if any). -/
structure SpecTrace where
  logs : List String
  patches : List PatchCall
  exc : Option PyExc
deriving DecidableEq

/-- `Approver.process_update_spec`, with the YAML load assumed successful
(the parsed mapping is the `spec` argument).  Follows the source line by
line: fetch the Subscription, fetch the InstallPlan it references, read
`clusterServiceVersionNames[0]` (an empty list raises `IndexError`),
return on version mismatch, return if already approved, otherwise log the
approval (with a dry-run marker when approve-mode is off) and, only when
`config.approve_updates` is true, set `approved` and issue the patch. -/
def process_update_spec (client : ApiClient) (approve_updates : Bool)
    (spec : UpdateSpec) : SpecTrace :=
  let l0 := ["processing subscription " ++ spec.name ++ " in namespace " ++ spec.nspace]
  match client.getSubscription spec.name spec.nspace with
  | .error e => { logs := l0, patches := [], exc := some e }
  | .ok sub =>
    let plan_name := sub.status.installPlanRef.name
    let l1 := l0 ++ [spec.name ++ ": got installplan " ++ plan_name]
    match client.getInstallPlan plan_name spec.nspace with
    | .error e => { logs := l1, patches := [], exc := some e }
    | .ok plan =>
      match plan.spec.clusterServiceVersionNames with
      | [] => { logs := l1, patches := [], exc := some .indexError }
      | have_ :: _ =>
        if have_ ≠ spec.version then
          { logs := l1 ++ [spec.name ++ ": invalid version: have=" ++ have_
                            ++ ", want=" ++ spec.version],
            patches := [], exc := none }
        else if plan.spec.approved then
          { logs := l1 ++ [spec.name ++ ": version " ++ spec.version
                            ++ " is already approved"],
            patches := [], exc := none }
        else
          let l2 := l1 ++ [spec.name ++ ": approve version " ++ spec.version
                            ++ (if approve_updates then "" else " (dry run)")]
          if approve_updates then
            let plan' : InstallPlan :=
              { plan with spec := { plan.spec with approved := true } }
            match client.patchInstallPlan plan' spec.nspace with
            | .error e =>
              { logs := l2, patches := [{ body := plan', nspace := spec.nspace }],
                exc := some e }
            | .ok _ =>
              { logs := l2, patches := [{ body := plan', nspace := spec.nspace }],
                exc := none }
          else
            { logs := l2, patches := [], exc := none }

/-- An entry of the configured spec directory: its file name, whether it
is a regular file (`Path.is_file`), and the parsed content of the file
(relevant only when the entry is processed). -/
structure DirEntry where
  fname : String
  isFile : Bool
  content : UpdateSpec
deriving DecidableEq

/-- `matchesSuffix fname post` models one `fnmatch` suffix pattern of
`Path.glob`: the file name ends with `post`. -/
def matchesSuffix (fname post : String) : Bool :=
  post.data.isSuffixOf fname.data

/-- The candidate spec files of one pass:
`chain(config_dir.glob('*.yml'), config_dir.glob('*.yaml'))` — all
entries matching `*.yml` followed by all entries matching `*.yaml`
(non-recursive: the directory listing is flat). -/
def specfileCandidates (dir : List DirEntry) : List DirEntry :=
  dir.filter (fun e => matchesSuffix e.fname ".yml")
    ++ dir.filter (fun e => matchesSuffix e.fname ".yaml")

/-- The observable effects of one `process_update_specs` pass: the value
of `count`, the names of the files handed to `process_update_spec`, the
accumulated log lines and patch calls, and the exception unwinding the
pass (if any). -/
structure PassTrace where
  count : Nat
  processed : List String
  logs : List String
  patches : List PatchCall
  exc : Option PyExc
deriving DecidableEq

/-- One iteration of the `for specfile in chain(...)` loop of
`process_update_specs`: once an exception has unwound the pass no further
entry is examined; a non-regular file is skipped; otherwise `count` is
incremented, the spec is processed, and a `NotFoundError` is caught and
logged (`unable to find requested resource: ...`) while any other
exception unwinds the pass. -/
def passStep (client : ApiClient) (approve_updates : Bool)
    (acc : PassTrace) (e : DirEntry) : PassTrace :=
  if acc.exc.isSome then acc
  else if e.isFile then
    let t := process_update_spec client approve_updates e.content
    let acc' : PassTrace :=
      { acc with
        count := acc.count + 1
        processed := acc.processed ++ [e.fname]
        logs := acc.logs ++ t.logs
        patches := acc.patches ++ t.patches }
    match t.exc with
    | some (.notFoundError s) =>
      { acc' with logs := acc'.logs ++ ["unable to find requested resource: " ++ s] }
    | some e' => { acc' with exc := some e' }
    | none => acc'
  else acc

/-- `Approver.process_update_specs`: fold `passStep` over the glob
candidates, starting from `count = 0` and empty accumulators. -/
def process_update_specs (client : ApiClient) (approve_updates : Bool)
    (dir : List DirEntry) : PassTrace :=
  (specfileCandidates dir).foldl (passStep client approve_updates)
    { count := 0, processed := [], logs := [], patches := [], exc := none }

/-- State of `Approver.loop`: `t_last` (initially `0`) and, as the
observable record of the run, the list of `t_start` times at which a
reconciliation pass was launched. -/
structure LoopState where
  t_last : Int
  runs : List Int
deriving DecidableEq

/-- One iteration of `Approver.loop` for an event handled at time
`t_start` (the value of `time.time()` at the top of the loop body),
abstracting a successfully completing reconciliation pass: if
`t_start - t_last < min_interval` the event is discarded and nothing
changes; otherwise a pass runs and `t_last` becomes `t_start` (the
admission time — not the time at which the pass finished). -/
def loopStep (min_interval : Int) (st : LoopState) (t_start : Int) : LoopState :=
  if t_start - st.t_last < min_interval then st
  else { t_last := t_start, runs := st.runs ++ [t_start] }

/-- `Approver.loop` over a finite sequence of event-handling times,
starting from `t_last = 0`. -/
def loopRun (min_interval : Int) (ts : List Int) : LoopState :=
  ts.foldl (loopStep min_interval) { t_last := 0, runs := [] }

/-- The kinds of events put on the queue: `('fs', ...)`,
`('subscription', ...)` and the synthesized `('timeout',)`. -/
inductive EventKind where
  | fs
  | subscriptionEvent
  | timeoutEvent
deriving DecidableEq

/-- One blocking pop of `Approver.events`: `self.q.get(timeout=max_interval)`
issued at time `T` against the pending queue (arrival-time/event pairs in
FIFO order).  If the queue delivers nothing within `max_interval`
seconds, `queue.Empty` is caught and the synthesized `('timeout',)` event
is yielded at `T + max_interval`.  Returns the yield time, the yielded
event, and the remaining queue. -/
def eventsPop (max_interval T : Int) (pending : List (Int × EventKind)) :
    Int × EventKind × List (Int × EventKind) :=
  match pending with
  | [] => (T + max_interval, .timeoutEvent, [])
  | (t, e) :: rest =>
    if t ≤ T + max_interval then (max T t, e, rest)
    else (T + max_interval, .timeoutEvent, pending)

/-- `Approver.loop` including exception propagation: one iteration for an
event handled at time `t_start`, where the reconciliation pass reads the
spec directory (`dirResult` is the outcome of globbing `config_dir`: a
listing, or the `FileNotFoundError` raised when the directory is
inaccessible) and runs `process_update_specs`.  Any exception escaping
the pass unwinds the loop: it is recorded and every later event is left
unprocessed. -/
def loopBody (client : ApiClient) (approve_updates : Bool) (min_interval : Int)
    (dirResult : Except PyExc (List DirEntry))
    (acc : LoopState × Option PyExc) (t_start : Int) : LoopState × Option PyExc :=
  match acc with
  | (st, some e) => (st, some e)
  | (st, none) =>
    if t_start - st.t_last < min_interval then (st, none)
    else
      match dirResult with
      | .error e => (st, some e)
      | .ok dir =>
        match (process_update_specs client approve_updates dir).exc with
        | some e => (st, some e)
        | none => ({ t_last := t_start, runs := st.runs ++ [t_start] }, none)

/-- `Approver.loop` with exception propagation over a finite sequence of
event-handling times. -/
def loopRunExc (client : ApiClient) (approve_updates : Bool) (min_interval : Int)
    (dirResult : Except PyExc (List DirEntry)) (ts : List Int) :
    LoopState × Option PyExc :=
  ts.foldl (loopBody client approve_updates min_interval dirResult)
    ({ t_last := 0, runs := [] }, none)

/-- The top-level `try/except` of `main`, applied to the outcome of
`app.loop()` (`none` when the loop ended without raising).  Returns the
log lines emitted by the handler and the exception re-raised past `main`
(if any).  Clause order follows the source: `UnauthorizedError` is tested
before `DynamicApiError`; a `NotFoundError` escaping the loop would be
caught by the `DynamicApiError` clause, since it is a subclass of it in
`openshift.dynamic.exceptions`. -/
def mainHandler (r : Option PyExc) : List String × Option PyExc :=
  match r with
  | none => ([], none)
  | some (.unauthorizedError s) => (["authorization failed: " ++ s], none)
  | some (.notFoundError s) => (["unexpected openshift api error: " ++ s], none)
  | some (.dynamicApiError s) => (["unexpected openshift api error: " ++ s], none)
  | some (.fileNotFoundError s) => (["unable to open config directory: " ++ s], none)
  | some .indexError => ([], some .indexError)

/-- `ApiClient.applyPatch` models the Declarative Resource Client's
contract for a patch (§3 of the design: the system "may set
`approved = true` and write the object back"): after
`patch(body, namespace)`, fetching the InstallPlan named `body.name` in
that namespace returns `body`; everything else is unchanged. -/
def ApiClient.applyPatch (c : ApiClient) (p : PatchCall) : ApiClient :=
  { c with
    getInstallPlan := fun n ns =>
      if n = p.body.name ∧ ns = p.nspace then .ok p.body
      else c.getInstallPlan n ns }

/-- A client is name-consistent when a fetched InstallPlan's metadata
name is the name it was requested under (a basic property of the real
API, used for the idempotence argument). -/
def ApiClient.nameConsistent (c : ApiClient) : Prop :=
  ∀ n ns plan, c.getInstallPlan n ns = .ok plan → plan.name = n

/-! Concrete fixtures, following the repository's test data
(`tests/conftest.py`): subscription `test-operator` in namespace
`test-ns` pointing at InstallPlan `test-operator` with
`clusterServiceVersionNames = ["test-operator-1.0"]`. -/

/-- The test Subscription: `status.installPlanRef.name = "test-operator"`. -/
def subA : Subscription := ⟨⟨⟨"test-operator"⟩⟩⟩

/-- The test InstallPlan of Scenario A: unapproved, version
`test-operator-1.0`. -/
def planA : InstallPlan := ⟨"test-operator", ⟨false, ["test-operator-1.0"]⟩⟩

/-- The test update spec (`updateconfig` fixture). -/
def specA : UpdateSpec := ⟨"test-operator", "test-ns", "test-operator-1.0"⟩

/-- A client serving one InstallPlan `p` under the Scenario A names;
patches succeed. -/
def clientWith (p : InstallPlan) : ApiClient where
  getSubscription := fun n ns =>
    if n = "test-operator" ∧ ns = "test-ns" then .ok subA
    else .error (.notFoundError ("subscriptions.get " ++ n))
  getInstallPlan := fun n ns =>
    if n = "test-operator" ∧ ns = "test-ns" then .ok p
    else .error (.notFoundError ("installplans.get " ++ n))
  patchInstallPlan := fun body _ => .ok body

/-- Scenario A client. -/
def clientA : ApiClient := clientWith planA

/-- Scenario B plan: already approved, matching version. -/
def planB : InstallPlan := ⟨"test-operator", ⟨true, ["test-operator-1.0"]⟩⟩

/-- A plan that is already approved but whose first cluster service
version name does not match the test spec's version. -/
def planX : InstallPlan := ⟨"test-operator", ⟨true, ["test-operator-2.0"]⟩⟩

/-- Scenario D client: every lookup raises `NotFoundError`. -/
def clientD : ApiClient where
  getSubscription := fun n _ => .error (.notFoundError ("subscriptions.get " ++ n))
  getInstallPlan := fun n _ => .error (.notFoundError ("installplans.get " ++ n))
  patchInstallPlan := fun body _ => .ok body

/-- Scenario E directory: one `.yml`, one `.yaml` and one `.gz` file. -/
def dirE : List DirEntry :=
  [⟨"testfile.yml", true, specA⟩, ⟨"testfile.yaml", true, specA⟩,
   ⟨"testfile.gz", true, specA⟩]

/-! Branch characterizations of `process_update_spec`. -/

lemma spec_sub_error {client : ApiClient} {a : Bool} {spec : UpdateSpec} {e : PyExc}
    (hs : client.getSubscription spec.name spec.nspace = .error e) :
    process_update_spec client a spec =
      { logs := ["processing subscription " ++ spec.name ++ " in namespace " ++ spec.nspace],
        patches := [], exc := some e } := by
  simp [process_update_spec, hs]

lemma spec_plan_error {client : ApiClient} {a : Bool} {spec : UpdateSpec}
    {sub : Subscription} {e : PyExc}
    (hs : client.getSubscription spec.name spec.nspace = .ok sub)
    (hp : client.getInstallPlan sub.status.installPlanRef.name spec.nspace = .error e) :
    process_update_spec client a spec =
      { logs := ["processing subscription " ++ spec.name ++ " in namespace " ++ spec.nspace,
                 spec.name ++ ": got installplan " ++ sub.status.installPlanRef.name],
        patches := [], exc := some e } := by
  simp [process_update_spec, hs, hp]

lemma spec_nil {client : ApiClient} {a : Bool} {spec : UpdateSpec}
    {sub : Subscription} {plan : InstallPlan}
    (hs : client.getSubscription spec.name spec.nspace = .ok sub)
    (hp : client.getInstallPlan sub.status.installPlanRef.name spec.nspace = .ok plan)
    (hc : plan.spec.clusterServiceVersionNames = []) :
    process_update_spec client a spec =
      { logs := ["processing subscription " ++ spec.name ++ " in namespace " ++ spec.nspace,
                 spec.name ++ ": got installplan " ++ sub.status.installPlanRef.name],
        patches := [], exc := some .indexError } := by
  simp [process_update_spec, hs, hp, hc]

lemma spec_mismatch {client : ApiClient} {a : Bool} {spec : UpdateSpec}
    {sub : Subscription} {plan : InstallPlan} {v : String} {tl : List String}
    (hs : client.getSubscription spec.name spec.nspace = .ok sub)
    (hp : client.getInstallPlan sub.status.installPlanRef.name spec.nspace = .ok plan)
    (hc : plan.spec.clusterServiceVersionNames = v :: tl)
    (hv : v ≠ spec.version) :
    process_update_spec client a spec =
      { logs := ["processing subscription " ++ spec.name ++ " in namespace " ++ spec.nspace,
                 spec.name ++ ": got installplan " ++ sub.status.installPlanRef.name,
                 spec.name ++ ": invalid version: have=" ++ v ++ ", want=" ++ spec.version],
        patches := [], exc := none } := by
  simp [process_update_spec, hs, hp, hc, hv]

lemma spec_already {client : ApiClient} {a : Bool} {spec : UpdateSpec}
    {sub : Subscription} {plan : InstallPlan} {tl : List String}
    (hs : client.getSubscription spec.name spec.nspace = .ok sub)
    (hp : client.getInstallPlan sub.status.installPlanRef.name spec.nspace = .ok plan)
    (hc : plan.spec.clusterServiceVersionNames = spec.version :: tl)
    (ha : plan.spec.approved = true) :
    process_update_spec client a spec =
      { logs := ["processing subscription " ++ spec.name ++ " in namespace " ++ spec.nspace,
                 spec.name ++ ": got installplan " ++ sub.status.installPlanRef.name,
                 spec.name ++ ": version " ++ spec.version ++ " is already approved"],
        patches := [], exc := none } := by
  simp [process_update_spec, hs, hp, hc, ha]

lemma spec_approve_patches {client : ApiClient} {spec : UpdateSpec}
    {sub : Subscription} {plan : InstallPlan} {tl : List String}
    (hs : client.getSubscription spec.name spec.nspace = .ok sub)
    (hp : client.getInstallPlan sub.status.installPlanRef.name spec.nspace = .ok plan)
    (hc : plan.spec.clusterServiceVersionNames = spec.version :: tl)
    (ha : plan.spec.approved = false) :
    (process_update_spec client true spec).patches =
      [⟨⟨plan.name, ⟨true, spec.version :: tl⟩⟩, spec.nspace⟩] := by
  simp only [process_update_spec, hs, hp, hc]
  simp only [ne_eq, not_true_eq_false, if_false, ha, if_true]
  cases hq : client.patchInstallPlan ⟨plan.name, ⟨true, spec.version :: tl⟩⟩ spec.nspace with
  | error e => simp [hq, ← hc]
  | ok r => simp [hq, ← hc]

lemma spec_dryrun_patches {client : ApiClient} {spec : UpdateSpec} :
    (process_update_spec client false spec).patches = [] := by
  unfold process_update_spec
  cases hs : client.getSubscription spec.name spec.nspace with
  | error e => simp [hs]
  | ok sub =>
    cases hp : client.getInstallPlan sub.status.installPlanRef.name spec.nspace with
    | error e => simp [hs, hp]
    | ok plan =>
      cases hc : plan.spec.clusterServiceVersionNames with
      | nil => simp [hs, hp, hc]
      | cons v tl =>
        by_cases hv : v = spec.version <;> by_cases ha : plan.spec.approved <;>
          simp [hs, hp, hc, hv, ha]

/-- C1: a patch call on the InstallPlan is issued iff, at decision time,
`clusterServiceVersionNames[0]` equals `spec.version`, the plan is
unapproved and approve-mode is enabled; in particular no patch is issued
on a version mismatch regardless of approve-mode, and no patch is ever
issued in dry-run mode. -/
theorem patch_iff_decision (client : ApiClient) (approve_updates : Bool)
    (spec : UpdateSpec) :
    ((process_update_spec client approve_updates spec).patches ≠ [] ↔
      ∃ sub plan,
        client.getSubscription spec.name spec.nspace = Except.ok sub ∧
        client.getInstallPlan sub.status.installPlanRef.name spec.nspace
          = Except.ok plan ∧
        plan.spec.clusterServiceVersionNames.head? = some spec.version ∧
        plan.spec.approved = false ∧
        approve_updates = true) ∧
    (approve_updates = false →
      (process_update_spec client approve_updates spec).patches = []) ∧
    (∀ sub plan,
      client.getSubscription spec.name spec.nspace = Except.ok sub →
      client.getInstallPlan sub.status.installPlanRef.name spec.nspace
        = Except.ok plan →
      plan.spec.clusterServiceVersionNames.head? ≠ some spec.version →
      (process_update_spec client approve_updates spec).patches = []) := by
  refine ⟨⟨?_, ?_⟩, ?_, ?_⟩
  · intro h
    cases approve_updates with
    | false => exact absurd spec_dryrun_patches h
    | true =>
      cases hs : client.getSubscription spec.name spec.nspace with
      | error e => rw [spec_sub_error hs] at h; simp at h
      | ok sub =>
        cases hp : client.getInstallPlan sub.status.installPlanRef.name spec.nspace with
        | error e => rw [spec_plan_error hs hp] at h; simp at h
        | ok plan =>
          cases hc : plan.spec.clusterServiceVersionNames with
          | nil => rw [spec_nil hs hp hc] at h; simp at h
          | cons v tl =>
            by_cases hv : v = spec.version
            · subst hv
              cases ha : plan.spec.approved with
              | true => rw [spec_already hs hp hc ha] at h; simp at h
              | false =>
                exact ⟨sub, plan, rfl, hp, by rw [hc]; rfl, ha, rfl⟩
            · rw [spec_mismatch hs hp hc hv] at h; simp at h
  · rintro ⟨sub, plan, hs, hp, hv, ha, rfl⟩
    cases hc : plan.spec.clusterServiceVersionNames with
    | nil => rw [hc] at hv; simp at hv
    | cons v tl =>
      rw [hc] at hv
      simp only [List.head?_cons, Option.some.injEq] at hv
      subst hv
      rw [spec_approve_patches hs hp hc ha]
      simp
  · intro hA
    subst hA
    exact spec_dryrun_patches
  · intro sub plan hs hp hv
    cases approve_updates with
    | false => exact spec_dryrun_patches
    | true =>
      cases hc : plan.spec.clusterServiceVersionNames with
      | nil => rw [spec_nil hs hp hc]
      | cons v tl =>
        have hv' : v ≠ spec.version := by
          intro hvv; subst hvv; rw [hc] at hv; exact hv rfl
        rw [spec_mismatch hs hp hc hv']

/-- C1 witness: in dry-run mode on the Scenario A fixtures no patch is
issued, and with approve-mode on a patch is issued (the decision
conditions hold). -/
theorem patch_iff_decision_witness :
    (process_update_spec clientA false specA).patches = [] ∧
    (process_update_spec clientA true specA).patches ≠ [] := by
  constructor
  · exact (patch_iff_decision clientA false specA).2.1 rfl
  · exact (patch_iff_decision clientA true specA).1.2
      ⟨subA, planA, rfl, rfl, rfl, rfl, rfl⟩

/-! Substring containment facts for log lines. -/

lemma hasSegB_append {pat l2 : List Char} (h : hasSegB pat l2 = true) (l1 : List Char) :
    hasSegB pat (l1 ++ l2) = true := by
  induction l1 with
  | nil => exact h
  | cons c l1 ih => simp [hasSegB, ih]

lemma strContains_append (s t pat : String) (h : strContains t pat = true) :
    strContains (s ++ t) pat = true := by
  rw [strContains, String.data_append]
  exact hasSegB_append h s.data

lemma clientWith_nameConsistent (p : InstallPlan) (h : p.name = "test-operator") :
    (clientWith p).nameConsistent := by
  intro n ns plan hplan
  unfold clientWith at hplan
  simp only at hplan
  split at hplan
  · rename_i hcond
    cases hplan
    rw [h, hcond.1]
  · cases hplan

/-- C5: when the spec's version matches `clusterServiceVersionNames[0]`,
the plan is unapproved and approve-mode is on, exactly one patch call is
issued, whose body is the fetched InstallPlan with `approved` set to
`true` and every other field — in particular
`clusterServiceVersionNames` — unchanged. -/
theorem approve_patch_body (client : ApiClient) (spec : UpdateSpec)
    (sub : Subscription) (plan : InstallPlan) (tl : List String)
    (hs : client.getSubscription spec.name spec.nspace = Except.ok sub)
    (hp : client.getInstallPlan sub.status.installPlanRef.name spec.nspace
            = Except.ok plan)
    (hc : plan.spec.clusterServiceVersionNames = spec.version :: tl)
    (ha : plan.spec.approved = false) :
    (process_update_spec client true spec).patches =
      [⟨{ plan with spec := { plan.spec with approved := true } }, spec.nspace⟩] := by
  rw [spec_approve_patches hs hp hc ha]
  simp [hc]

/-- C5 witness: Scenario A — the single patch body is the fixture plan
with `approved := true` and the same `clusterServiceVersionNames`. -/
theorem approve_patch_body_witness :
    (process_update_spec clientA true specA).patches =
      [⟨⟨"test-operator", ⟨true, ["test-operator-1.0"]⟩⟩, "test-ns"⟩] :=
  approve_patch_body clientA specA subA planA [] rfl rfl rfl rfl

/-- C4 counterexample: against an InstallPlan that is already approved
but whose `clusterServiceVersionNames[0]` differs from the spec's
version, processing issues zero patch calls yet emits no log line
containing "already approved" (it logs "invalid version" instead), so
the claim's unconditional "logs a line containing already approved" is
false. -/
theorem already_approved_log_cex :
    (process_update_spec (clientWith planX) true specA).patches = [] ∧
    (∀ l ∈ (process_update_spec (clientWith planX) true specA).logs,
      strContains l "already approved" = false) := by
  constructor
  · rfl
  · decide

/-- C4 (amended): processing a spec against an already-approved
InstallPlan issues zero patch calls; when additionally
`clusterServiceVersionNames[0]` matches the spec's version, a log line
containing "already approved" is emitted; and processing the same spec
twice, where the first pass approved the plan, never issues a second
patch call. -/
theorem already_approved_idempotent (client : ApiClient) (a : Bool)
    (spec : UpdateSpec) (sub : Subscription) (plan : InstallPlan) (tl : List String)
    (hs : client.getSubscription spec.name spec.nspace = Except.ok sub)
    (hp : client.getInstallPlan sub.status.installPlanRef.name spec.nspace
            = Except.ok plan) :
    (plan.spec.approved = true → (process_update_spec client a spec).patches = []) ∧
    (plan.spec.clusterServiceVersionNames = spec.version :: tl →
      plan.spec.approved = true →
      ∃ l ∈ (process_update_spec client a spec).logs,
        strContains l "already approved" = true) ∧
    (plan.spec.clusterServiceVersionNames = spec.version :: tl →
      plan.spec.approved = false → client.nameConsistent →
      (process_update_spec client true spec).patches =
        [⟨⟨plan.name, ⟨true, spec.version :: tl⟩⟩, spec.nspace⟩] ∧
      (process_update_spec
          (client.applyPatch ⟨⟨plan.name, ⟨true, spec.version :: tl⟩⟩, spec.nspace⟩)
          true spec).patches = []) := by
  refine ⟨?_, ?_, ?_⟩
  · intro ha
    cases hc : plan.spec.clusterServiceVersionNames with
    | nil => rw [spec_nil hs hp hc]
    | cons v tl' =>
      by_cases hv : v = spec.version
      · subst hv
        rw [spec_already hs hp hc ha]
      · rw [spec_mismatch hs hp hc hv]
  · intro hc ha
    rw [spec_already hs hp hc ha]
    refine ⟨spec.name ++ ": version " ++ spec.version ++ " is already approved",
      by simp, ?_⟩
    exact strContains_append _ _ _ (by decide)
  · intro hc ha hnc
    refine ⟨spec_approve_patches hs hp hc ha, ?_⟩
    have hs' : (client.applyPatch
        ⟨⟨plan.name, ⟨true, spec.version :: tl⟩⟩, spec.nspace⟩).getSubscription
        spec.name spec.nspace = Except.ok sub := hs
    have hp' : (client.applyPatch
        ⟨⟨plan.name, ⟨true, spec.version :: tl⟩⟩, spec.nspace⟩).getInstallPlan
        sub.status.installPlanRef.name spec.nspace
        = Except.ok ⟨plan.name, ⟨true, spec.version :: tl⟩⟩ := by
      show (if sub.status.installPlanRef.name = plan.name ∧ spec.nspace = spec.nspace
        then Except.ok (⟨plan.name, ⟨true, spec.version :: tl⟩⟩ : InstallPlan)
        else client.getInstallPlan sub.status.installPlanRef.name spec.nspace)
        = Except.ok ⟨plan.name, ⟨true, spec.version :: tl⟩⟩
      rw [if_pos ⟨(hnc _ _ _ hp).symm, rfl⟩]
    rw [spec_already hs' hp' rfl rfl]


/-- C4 witness: on Scenario A, the first pass issues the approving patch
and a second pass against the patched cluster issues no patch. -/
theorem already_approved_idempotent_witness :
    (process_update_spec clientA true specA).patches =
      [⟨⟨"test-operator", ⟨true, ["test-operator-1.0"]⟩⟩, "test-ns"⟩] ∧
    (process_update_spec
        (clientA.applyPatch ⟨⟨"test-operator", ⟨true, ["test-operator-1.0"]⟩⟩, "test-ns"⟩)
        true specA).patches = [] :=
  (already_approved_idempotent clientA true specA subA planA [] rfl rfl).2.2
    rfl rfl (clientWith_nameConsistent planA rfl)

/-- C6: a `NotFoundError` from the Subscription or InstallPlan fetch
aborts that spec's processing with zero patch calls; the surrounding
pass logs a line containing "unable to find", keeps its accumulated
patches unchanged, and continues (no exception is recorded, so the next
spec is processed and the pass completes normally). -/
theorem notfound_recoverable (client : ApiClient) (a : Bool) (acc : PassTrace)
    (e : DirEntry) (s : String)
    (hacc : acc.exc = none)
    (hfile : e.isFile = true)
    (hnf : client.getSubscription e.content.name e.content.nspace
             = Except.error (.notFoundError s) ∨
           ∃ sub, client.getSubscription e.content.name e.content.nspace
                    = Except.ok sub ∧
             client.getInstallPlan sub.status.installPlanRef.name e.content.nspace
               = Except.error (.notFoundError s)) :
    (process_update_spec client a e.content).patches = [] ∧
    (process_update_spec client a e.content).exc = some (.notFoundError s) ∧
    passStep client a acc e =
      { count := acc.count + 1,
        processed := acc.processed ++ [e.fname],
        logs := acc.logs ++ (process_update_spec client a e.content).logs
                  ++ ["unable to find requested resource: " ++ s],
        patches := acc.patches,
        exc := none } ∧
    strContains ("unable to find requested resource: " ++ s) "unable to find" = true := by
  have htr : (process_update_spec client a e.content).patches = [] ∧
      (process_update_spec client a e.content).exc = some (.notFoundError s) := by
    rcases hnf with h | ⟨sub, hsub, hplan⟩
    · rw [spec_sub_error h]; exact ⟨rfl, rfl⟩
    · rw [spec_plan_error hsub hplan]; exact ⟨rfl, rfl⟩
  refine ⟨htr.1, htr.2, ?_, ?_⟩
  · rw [passStep, hacc]
    simp only [Option.isSome_none, Bool.false_eq_true, if_false, hfile, if_true,
      htr.2, htr.1]
    simp
  · rw [strContains, String.data_append]
    rfl

/-- C6 witness: Scenario D — with every lookup raising not-found, a pass
over one spec file issues no patch and completes without raising. -/
theorem notfound_recoverable_witness :
    (process_update_specs clientD true [⟨"updateconfig.yaml", true, specA⟩]).patches = [] ∧
    (process_update_specs clientD true [⟨"updateconfig.yaml", true, specA⟩]).exc = none := by
  have h := notfound_recoverable clientD true ⟨0, [], [], [], none⟩
      ⟨"updateconfig.yaml", true, specA⟩ "subscriptions.get test-operator" rfl rfl (Or.inl rfl)
  have hps : process_update_specs clientD true [⟨"updateconfig.yaml", true, specA⟩]
      = passStep clientD true ⟨0, [], [], [], none⟩ ⟨"updateconfig.yaml", true, specA⟩ := rfl
  rw [hps, h.2.2.1]
  exact ⟨rfl, rfl⟩

/-! Facts about the pass fold. -/

lemma passStep_stuck (client : ApiClient) (a : Bool) (acc : PassTrace) (e : DirEntry)
    (h : acc.exc.isSome = true) : passStep client a acc e = acc := by
  unfold passStep
  rw [if_pos h]

lemma pass_exc_stable (client : ApiClient) (a : Bool) (l : List DirEntry)
    (acc : PassTrace) (h : acc.exc.isSome = true) :
    l.foldl (passStep client a) acc = acc := by
  induction l with
  | nil => rfl
  | cons e l ih => rw [List.foldl_cons, passStep_stuck client a acc e h, ih]

lemma passStep_file (client : ApiClient) (a : Bool) (acc : PassTrace) (e : DirEntry)
    (h : acc.exc = none) (hf : e.isFile = true) :
    (passStep client a acc e).count = acc.count + 1 ∧
    (passStep client a acc e).processed = acc.processed ++ [e.fname] := by
  unfold passStep
  rw [h]
  simp only [Option.isSome_none, Bool.false_eq_true, if_false, hf, if_true]
  cases hx : (process_update_spec client a e.content).exc with
  | none => exact ⟨rfl, rfl⟩
  | some ex => cases ex <;> exact ⟨rfl, rfl⟩

lemma passStep_nonfile (client : ApiClient) (a : Bool) (acc : PassTrace) (e : DirEntry)
    (h : acc.exc = none) (hf : e.isFile = false) :
    passStep client a acc e = acc := by
  unfold passStep
  rw [h, hf]
  simp

lemma pass_count (client : ApiClient) (a : Bool) : ∀ (l : List DirEntry) (acc : PassTrace),
    (l.foldl (passStep client a) acc).exc = none →
    (l.foldl (passStep client a) acc).count
      = acc.count + (l.filter (fun e => e.isFile)).length ∧
    (l.foldl (passStep client a) acc).processed
      = acc.processed ++ (l.filter (fun e => e.isFile)).map (fun e => e.fname) := by
  intro l
  induction l with
  | nil => intro acc h; simp
  | cons e l ih =>
    intro acc h
    rw [List.foldl_cons] at h ⊢
    cases hex : acc.exc with
    | some ex =>
      have hs : acc.exc.isSome = true := by rw [hex]; rfl
      rw [passStep_stuck client a acc e hs, pass_exc_stable client a l acc hs] at h
      rw [h] at hex
      cases hex
    | none =>
      cases hf : e.isFile with
      | false =>
        rw [passStep_nonfile client a acc e hex hf] at h ⊢
        have := ih acc h
        simpa [List.filter_cons, hf] using this
      | true =>
        have hstep := passStep_file client a acc e hex hf
        have := ih (passStep client a acc e) h
        rw [List.filter_cons, hf]
        constructor
        · rw [this.1, hstep.1]
          simp [Nat.add_comm, Nat.add_assoc, Nat.add_left_comm]
        · rw [this.2, hstep.2]
          simp

/-- C8: a reconciliation pass discovers the directory entries matching
`*.yml` or `*.yaml` (non-recursively: the listing is flat), processes
exactly the regular files among them, and on the Scenario E directory
(one `.yml`, one `.yaml`, one `.gz` file) discovers and processes
exactly two specs and returns count 2. -/
theorem glob_discovery :
    (∀ (dir : List DirEntry) (e : DirEntry),
      e ∈ specfileCandidates dir ↔
        e ∈ dir ∧ (matchesSuffix e.fname ".yml" = true ∨
                   matchesSuffix e.fname ".yaml" = true)) ∧
    (∀ (client : ApiClient) (a : Bool) (dir : List DirEntry),
      (process_update_specs client a dir).exc = none →
      (process_update_specs client a dir).processed
        = ((specfileCandidates dir).filter (fun e => e.isFile)).map (fun e => e.fname)) ∧
    (process_update_specs clientA true dirE).count = 2 ∧
    (process_update_specs clientA true dirE).processed
      = ["testfile.yml", "testfile.yaml"] := by
  refine ⟨?_, ?_, ?_, ?_⟩
  · intro dir e
    simp only [specfileCandidates, List.mem_append, List.mem_filter]
    tauto
  · intro client a dir h
    have := (pass_count client a (specfileCandidates dir) ⟨0, [], [], [], none⟩ h).2
    simpa using this
  · decide
  · decide

/-- C8 witness: in dry-run mode on the Scenario E directory the pass
completes and processes exactly the `.yml` and the `.yaml` file. -/
theorem glob_discovery_witness :
    (process_update_specs clientA false dirE).processed
      = ["testfile.yml", "testfile.yaml"] :=
  glob_discovery.2.1 clientA false dirE rfl

/-- C10: the count returned by a completed reconciliation pass equals
the number of matching regular spec files encountered — the counter is
incremented before the spec is processed, so a spec skipped by a
not-found error is still counted. -/
theorem pass_count_returned (client : ApiClient) (a : Bool) (dir : List DirEntry)
    (h : (process_update_specs client a dir).exc = none) :
    (process_update_specs client a dir).count
      = ((specfileCandidates dir).filter (fun e => e.isFile)).length := by
  have := (pass_count client a (specfileCandidates dir) ⟨0, [], [], [], none⟩ h).1
  simpa using this

/-- C10 witness: with every lookup raising not-found, both Scenario E
spec files are skipped yet the pass returns count 2. -/
theorem pass_count_returned_witness :
    (process_update_specs clientD true dirE).count = 2 :=
  pass_count_returned clientD true dirE rfl

/-! The debounce gate. -/

lemma loopStep_discard (m : Int) (st : LoopState) (t : Int) (h : t - st.t_last < m) :
    loopStep m st t = st := by
  unfold loopStep
  rw [if_pos h]

lemma loopStep_accept (m : Int) (st : LoopState) (t : Int) (h : m ≤ t - st.t_last) :
    loopStep m st t = { t_last := t, runs := st.runs ++ [t] } := by
  unfold loopStep
  rw [if_neg (not_lt.mpr h)]

lemma loop_discard_all (m : Int) (st : LoopState) (ts : List Int)
    (h : ∀ t ∈ ts, t - st.t_last < m) : ts.foldl (loopStep m) st = st := by
  induction ts with
  | nil => rfl
  | cons t ts ih =>
    rw [List.foldl_cons, loopStep_discard m st t (h t (by simp))]
    exact ih (fun t' ht' => h t' (by simp [ht']))

/-- C2: an event whose elapsed time since `t_last` is strictly below
`min_interval` is discarded — no pass runs and `t_last` is unchanged —
and consequently a burst of events all within `min_interval` of its
first event, whose first event is admitted, runs exactly one pass,
triggered by the first event of the burst. -/
theorem debounce_burst :
    (∀ (m : Int) (st : LoopState) (t : Int),
      t - st.t_last < m → loopStep m st t = st) ∧
    (∀ (m t0 : Int) (ts : List Int) (st : LoopState),
      m ≤ t0 - st.t_last →
      (∀ t ∈ ts, t0 ≤ t) →
      (∀ t ∈ ts, t - t0 < m) →
      (t0 :: ts).foldl (loopStep m) st
        = { t_last := t0, runs := st.runs ++ [t0] }) := by
  constructor
  · exact loopStep_discard
  · intro m t0 ts st h0 hge hlt
    rw [List.foldl_cons, loopStep_accept m st t0 h0]
    exact loop_discard_all m ⟨t0, st.runs ++ [t0]⟩ ts (fun t ht => hlt t ht)

/-- C2 witness: with `min_interval = 10`, the burst handled at times
100, 105, 107 runs exactly one pass, at time 100. -/
theorem debounce_burst_witness :
    loopRun 10 [100, 105, 107] = ⟨100, [100]⟩ :=
  debounce_burst.2 10 100 [105, 107] ⟨0, []⟩ (by decide) (by decide) (by decide)

/-- C9 counterexample: with `min_interval = 10`, a pass admitted at
`t = 100` whose execution lasts until `t = 120` (duration 20) is
re-triggered: an event queued during its execution is handled at
`t = 120` with elapsed time 20 measured from the pass's start, so it is
admitted and a second pass runs, refuting "a pass does not re-trigger
itself via events queued during its own execution". -/
theorem no_retrigger_cex :
    (loopRun 10 [100, 120]).runs = [100, 120] ∧
    (loopRun 10 [100, 120]).runs ≠ [100] := by
  constructor
  · decide
  · decide

/-- C9 (amended): for every admitted event the loop sets `t_last` to the
admission time `t_start` captured before the pass runs (the pass's end
time never enters the state), so later events have their elapsed time
measured from the pass's start; an event handled within `min_interval`
of the pass's start — in particular any event queued during a pass that
finishes within `min_interval` of starting — is discarded, while an
event handled `min_interval` or later after the pass's start (as happens
for events queued during a pass running at least `min_interval` long) is
admitted and runs a new pass. -/
theorem t_last_is_admission_time (m : Int) (st : LoopState) (t : Int)
    (hadm : m ≤ t - st.t_last) :
    (loopStep m st t).t_last = t ∧
    (loopStep m st t).runs = st.runs ++ [t] ∧
    (∀ t' : Int, t' - t < m → loopStep m (loopStep m st t) t' = loopStep m st t) ∧
    (∀ t' : Int, m ≤ t' - t →
      (loopStep m (loopStep m st t) t').runs = st.runs ++ [t] ++ [t']) := by
  rw [loopStep_accept m st t hadm]
  refine ⟨rfl, rfl, ?_, ?_⟩
  · intro t' h
    exact loopStep_discard m ⟨t, st.runs ++ [t]⟩ t' h
  · intro t' h
    rw [loopStep_accept m ⟨t, st.runs ++ [t]⟩ t' h]

/-- C9 witness: with `min_interval = 10` and a pass admitted at 100, an
event handled at 105 is discarded while an event handled at 120 runs a
second pass. -/
theorem t_last_is_admission_time_witness :
    loopStep 10 (loopStep 10 ⟨0, []⟩ 100) 105 = loopStep 10 ⟨0, []⟩ 100 ∧
    (loopStep 10 (loopStep 10 ⟨0, []⟩ 100) 120).runs = [100, 120] := by
  constructor
  · exact (t_last_is_admission_time 10 ⟨0, []⟩ 100 (by decide)).2.2.1 105 (by decide)
  · exact (t_last_is_admission_time 10 ⟨0, []⟩ 100 (by decide)).2.2.2 120 (by decide)

/-- C3: a blocking pop of the events iterator always yields within
`max_interval`: the yield happens no later than `T + max_interval`, and
when the queue is empty — or its next event arrives after the window —
the synthesized `('timeout',)` event is yielded at exactly
`T + max_interval` instead of blocking indefinitely, so the loop
receives a trigger at least once every `max_interval` seconds even with
zero external events. -/
theorem events_always_yield (M T : Int) (pending : List (Int × EventKind))
    (hM : 0 ≤ M) :
    (eventsPop M T pending).1 ≤ T + M ∧
    (pending = [] → eventsPop M T pending = (T + M, .timeoutEvent, [])) ∧
    (∀ t e rest, pending = (t, e) :: rest → T + M < t →
      eventsPop M T pending = (T + M, .timeoutEvent, pending)) := by
  refine ⟨?_, ?_, ?_⟩
  · cases pending with
    | nil => exact le_refl _
    | cons te rest =>
      obtain ⟨t, e⟩ := te
      show (if t ≤ T + M then (max T t, e, rest)
        else (T + M, EventKind.timeoutEvent, (t, e) :: rest)).1 ≤ T + M
      by_cases h : t ≤ T + M
      · rw [if_pos h]
        exact max_le (by linarith) h
      · rw [if_neg h]
  · intro h
    subst h
    rfl
  · intro t e rest h hlate
    subst h
    show (if t ≤ T + M then (max T t, e, rest)
      else (T + M, EventKind.timeoutEvent, (t, e) :: rest))
      = (T + M, EventKind.timeoutEvent, (t, e) :: rest)
    rw [if_neg (not_le.mpr hlate)]

/-- C3 witness: with `max_interval = 900` and an empty queue, the pop
issued at time 0 yields the synthesized timeout event at time 900. -/
theorem events_always_yield_witness :
    eventsPop 900 0 [] = (900, EventKind.timeoutEvent, []) :=
  (events_always_yield 900 0 [] (by decide)).2.1 rfl

/-- C7: each fatal condition — the spec directory being inaccessible
(`FileNotFoundError` from the glob), and any exception escaping a
reconciliation pass (unauthorized access or any other API error during
get/patch) — aborts the loop with that exception; once the loop has
failed, no later event is processed (never retried); and `main` catches
the exception exactly once, emitting exactly one category-specific log
line (authorization failure, unexpected API error, or inaccessible
config directory — pairwise distinct, so no other category's message
appears) and re-raising nothing, so the process terminates. -/
theorem fatal_errors_terminal :
    (∀ (client : ApiClient) (a : Bool) (m : Int)
        (d : Except PyExc (List DirEntry)) (st : LoopState) (t : Int) (e : PyExc),
      loopBody client a m d (st, some e) t = (st, some e)) ∧
    (∀ (client : ApiClient) (a : Bool) (m : Int) (st : LoopState) (t : Int) (e : PyExc),
      m ≤ t - st.t_last →
      loopBody client a m (Except.error e) (st, none) t = (st, some e)) ∧
    (∀ (client : ApiClient) (a : Bool) (m : Int) (dir : List DirEntry)
        (st : LoopState) (t : Int) (e : PyExc),
      m ≤ t - st.t_last →
      (process_update_specs client a dir).exc = some e →
      loopBody client a m (Except.ok dir) (st, none) t = (st, some e)) ∧
    (∀ s : String,
      mainHandler (some (.unauthorizedError s))
        = (["authorization failed: " ++ s], none) ∧
      mainHandler (some (.dynamicApiError s))
        = (["unexpected openshift api error: " ++ s], none) ∧
      mainHandler (some (.fileNotFoundError s))
        = (["unable to open config directory: " ++ s], none)) ∧
    (∀ s t : String,
      "authorization failed: " ++ s ≠ "unexpected openshift api error: " ++ t ∧
      "authorization failed: " ++ s ≠ "unable to open config directory: " ++ t ∧
      "unexpected openshift api error: " ++ s
        ≠ "unable to open config directory: " ++ t) := by
  refine ⟨?_, ?_, ?_, ?_, ?_⟩
  · intro client a m d st t e
    rfl
  · intro client a m st t e h
    show (if t - st.t_last < m then ((st, none) : LoopState × Option PyExc)
      else (st, some e)) = (st, some e)
    rw [if_neg (not_lt.mpr h)]
  · intro client a m dir st t e h hexc
    show (if t - st.t_last < m then ((st, none) : LoopState × Option PyExc)
      else
        match (process_update_specs client a dir).exc with
        | some e => (st, some e)
        | none => ({ t_last := t, runs := st.runs ++ [t] }, none)) = (st, some e)
    rw [if_neg (not_lt.mpr h), hexc]
  · intro s
    exact ⟨rfl, rfl, rfl⟩
  · intro s t
    refine ⟨fun h => ?_, fun h => ?_, fun h => ?_⟩
    · have h3 := congrArg (fun x : String => x.data.take 3) h
      simp only [String.data_append] at h3
      have h4 : (['a', 'u', 't'] : List Char) = ['u', 'n', 'e'] := h3
      simp at h4
    · have h3 := congrArg (fun x : String => x.data.take 3) h
      simp only [String.data_append] at h3
      have h4 : (['a', 'u', 't'] : List Char) = ['u', 'n', 'a'] := h3
      simp at h4
    · have h3 := congrArg (fun x : String => x.data.take 3) h
      simp only [String.data_append] at h3
      have h4 : (['u', 'n', 'e'] : List Char) = ['u', 'n', 'a'] := h3
      simp at h4

/-- C7 witness: an inaccessible spec directory aborts the loop with
`FileNotFoundError`, and `main` logs the authorization-failure message
for an `UnauthorizedError` escaping the loop. -/
theorem fatal_errors_terminal_witness :
    loopBody clientA true 10 (Except.error (PyExc.fileNotFoundError "gone"))
        (⟨0, []⟩, none) 100
      = (⟨0, []⟩, some (PyExc.fileNotFoundError "gone")) ∧
    mainHandler (some (PyExc.unauthorizedError "denied"))
      = (["authorization failed: denied"], none) := by
  constructor
  · exact fatal_errors_terminal.2.1 clientA true 10 ⟨0, []⟩ 100
      (PyExc.fileNotFoundError "gone") (by decide)
  · exact (fatal_errors_terminal.2.2.2.1 "denied").1

end InstallPlanOperator
